import Mathlib

/-!
Verification of the guitar-shopping orchestration core
(`src/agents/orchestrator.py`, `src/utils/rag.py`) against its
natural-language specification.

The Python code is shallowly embedded: pure helpers become Lean functions,
the LangGraph state machine becomes an explicit sequential runner over an
`AgentState` record mirroring the Python `TypedDict`, and the three LLM-backed
generation calls are parameters (an `Agents` record of content oracles), since
their text output is produced by an external backend. Wall-clock timestamps
and free-form metadata dictionaries on responder results are not modelled:
no claim depends on them. Python's `str.lower` is modelled by a per-character
`Char.toLower` map (the keyword lists are ASCII, where the two agree).
-/

namespace GuitarShop

/-- One conversation turn: the Python history entries are dicts with a
`role` key, an optional `agent` key (present on agent turns) and a
`content` key. -/
structure Turn where
  role : String
  agent : Option String
  content : String
deriving DecidableEq, Repr

/-- Contiguous-sublist test: `kw` occurs somewhere in `q`. -/
def charsInfixOf (kw q : List Char) : Bool :=
  q.tails.any (fun t => kw.isPrefixOf t)

/-- Python `query.lower()`, as the character list of the lowered text
(per-character lowering; the keyword lists are ASCII). -/
def pyLower (s : String) : List Char :=
  s.data.map Char.toLower

/-- Python `kw in q`: substring containment of keyword `kw` in the
(already lowered) query text `q`. -/
def substrIn (kw : String) (q : List Char) : Bool :=
  charsInfixOf kw.data q

/-- `sum(1 for kw in kws if kw in q)` from `_classify_intent`:
the number of keywords of `kws` occurring as substrings of `q`. -/
def countHits (kws : List String) (q : List Char) : Nat :=
  (kws.filter (fun kw => substrIn kw q)).length

-- Intent constants (orchestrator.py lines 22-26)
def INTENT_INFO : String := "information_request"
def INTENT_RECOMMEND : String := "recommendation_request"
def INTENT_PRICE : String := "price_inquiry"
def INTENT_COMPARE : String := "comparison_request"
def INTENT_GENERAL : String := "general_inquiry"

-- Keyword lists of `_classify_intent` (orchestrator.py lines 225-235)
def price_kw : List String :=
  ["price", "cost", "expensive", "cheap", "discount", "deal",
   "afford", "budget", "how much", "negotiate", "offer"]

def rec_kw : List String :=
  ["recommend", "suggest", "best", "suitable", "good for",
   "which guitar", "what should", "help me choose", "pick",
   "looking for", "want to buy", "buying", "need a guitar",
   "purchase", "buy", "shop"]

def info_kw : List String :=
  ["tell me", "explain", "what is", "how does", "difference",
   "type", "brand", "brands", "models", "features",
   "specification", "specs", "about", "info", "information",
   "browse", "show", "list", "available"]

def comp_kw : List String :=
  ["compare", "vs", "versus", "between", "or"]

/-- The `scores` dict of `_classify_intent`, in its insertion order
(price, recommend, info, compare); the query is lower-cased first. -/
def intentScores (query : String) : List (String × Nat) :=
  let q := pyLower query
  [(INTENT_PRICE, countHits price_kw q),
   (INTENT_RECOMMEND, countHits rec_kw q),
   (INTENT_INFO, countHits info_kw q),
   (INTENT_COMPARE, countHits comp_kw q)]

/-- Python `max(iterable, key=...)` over a non-empty list: keeps the current
maximum and replaces it only on a strictly greater value, so the first
maximum in iteration order wins. -/
def pyMax (x : (String × Nat)) (xs : List (String × Nat)) : String × Nat :=
  xs.foldl (fun b a => if a.2 > b.2 then a else b) x

/-- `_classify_intent` (orchestrator.py lines 221-248): score the four
keyword lists against the lower-cased query, take the first-maximal intent
(Python `max` over the dict), and fall back to `general_inquiry` when the
best score is zero. -/
def classify_intent (query : String) : String :=
  match intentScores query with
  | [] => INTENT_GENERAL
  | x :: xs =>
    let best := pyMax x xs
    if best.2 > 0 then best.1 else INTENT_GENERAL

/-- `INTENT_AGENT_MAP` (orchestrator.py lines 29-35), as an association
list in the dict's insertion order. -/
def INTENT_AGENT_MAP : List (String × List String) :=
  [(INTENT_INFO, ["information"]),
   (INTENT_RECOMMEND, ["information", "recommendation"]),
   (INTENT_PRICE, ["information", "negotiation"]),
   (INTENT_COMPARE, ["information", "recommendation"]),
   (INTENT_GENERAL, ["information"])]

/-- Python `dict.get(key, default)` on an association list. -/
def dictGet (m : List (String × List String)) (k : String) (d : List String) :
    List String :=
  match m.find? (fun p => p.1 == k) with
  | some p => p.2
  | none => d

/-- The active-agents list computed in `_parse_customer_intent`:
`INTENT_AGENT_MAP.get(intent, ["information"])`. -/
def active_agents_for (query : String) : List String :=
  dictGet INTENT_AGENT_MAP (classify_intent query) ["information"]

-- scratch checks
example : classify_intent "zzz" = INTENT_GENERAL := by decide
example : classify_intent "price about" = INTENT_PRICE := by decide
example : active_agents_for "cheap" = ["information", "negotiation"] := by decide

/-- A responder result as produced by `format_agent_response`
(`src/utils/data_utils.py`): only the `agent` and `content` fields are
modelled; the wall-clock `timestamp` and the free-form `metadata` dict play
no role in any claim. A `none` slot in `AgentState` is Python's initial
empty dict `{}` (falsy); a `some` value is the (truthy) result dict. -/
structure AgentResp where
  agent : String
  content : String
deriving DecidableEq, Repr

/-- The `AgentState` TypedDict (orchestrator.py lines 38-50). -/
structure AgentState where
  customer_query : String
  conversation_history : List Turn
  intent : String
  active_agents : List String
  information_response : Option AgentResp
  recommendation_response : Option AgentResp
  negotiation_response : Option AgentResp
  final_response : String
  current_stage : String
  workflow_complete : Bool
  preferences : List (String × String)
deriving DecidableEq, Repr

/-- The three responders' generation backends, as content oracles: the text
each LLM-backed call returns. `infoGen` receives the query and the history
excerpt passed to `process_information_request`; `recGen` the preferences
and history excerpt passed to `recommend_guitars`; `negGen` the query and
quantity passed to `handle_price_inquiry`. -/
structure Agents where
  infoGen : String → List Turn → String
  recGen : List (String × String) → List Turn → String
  negGen : String → Nat → String

/-- `_parse_customer_intent` (orchestrator.py lines 129-141): classify,
derive the active agents, set the stage marker and append a system turn
recording the detected intent. -/
def parse_customer_intent (state : AgentState) : AgentState :=
  let intent := classify_intent state.customer_query
  let active_agents := dictGet INTENT_AGENT_MAP intent ["information"]
  { state with
      intent := intent
      active_agents := active_agents
      current_stage := "intent_parsing"
      conversation_history := state.conversation_history ++
        [⟨"system", none,
          "Detected intent: " ++ intent ++ " → activating: " ++
            String.intercalate ", " active_agents⟩] }

/-- `_run_information_agent` (orchestrator.py lines 143-155): call the
information responder on the query and `conversation_history[:-1]`, store
the result slot and append an agent turn. -/
def run_information_agent (ag : Agents) (state : AgentState) : AgentState :=
  let content := ag.infoGen state.customer_query state.conversation_history.dropLast
  { state with
      information_response := some ⟨"Information Agent", content⟩
      current_stage := "information_gathering"
      conversation_history := state.conversation_history ++
        [⟨"agent", some "Information Agent", content⟩] }

/-- `_run_recommendation_agent` (orchestrator.py lines 157-170): call the
recommendation responder on the preferences and `conversation_history[:-1]`,
store the result slot and append an agent turn. -/
def run_recommendation_agent (ag : Agents) (state : AgentState) : AgentState :=
  let content := ag.recGen state.preferences state.conversation_history.dropLast
  { state with
      recommendation_response := some ⟨"Recommendation Agent", content⟩
      current_stage := "recommendation"
      conversation_history := state.conversation_history ++
        [⟨"agent", some "Recommendation Agent", content⟩] }

/-- `_run_negotiation_agent` (orchestrator.py lines 172-184): call the
negotiator on the query with quantity 1, store the result slot and append
an agent turn. -/
def run_negotiation_agent (ag : Agents) (state : AgentState) : AgentState :=
  let content := ag.negGen state.customer_query 1
  { state with
      negotiation_response := some ⟨"Price Negotiator Agent", content⟩
      current_stage := "negotiation"
      conversation_history := state.conversation_history ++
        [⟨"agent", some "Price Negotiator Agent", content⟩] }

/-- `_route_after_information` (orchestrator.py lines 110-117). -/
def route_after_information (state : AgentState) : String :=
  if state.active_agents.contains "recommendation" then "recommendation_node"
  else if state.active_agents.contains "negotiation" then "negotiation_node"
  else "synthesize_response"

/-- `_route_after_recommendation` (orchestrator.py lines 119-124). -/
def route_after_recommendation (state : AgentState) : String :=
  if state.active_agents.contains "negotiation" then "negotiation_node"
  else "synthesize_response"

def fallback_body : String :=
  "I\x27m not sure how to help with that — could you rephrase?"

def closing_line : String :=
  "\n\n---\n*Feel free to ask me more — I\x27m here to help you find your perfect guitar!* 🎸\n"

/-- `_synthesize_response` (orchestrator.py lines 186-216): one heading-
prefixed section per active agent whose (truthy) result slot has truthy
content, in the order information, recommendation, negotiation; fallback
body when no section qualifies; fixed closing line always appended. -/
def synthesize_response (state : AgentState) : AgentState :=
  let sections : List String := []
  let sections := if state.active_agents.contains "information" then
      match state.information_response with
      | some r => if r.content ≠ "" then sections ++ ["### 📚 Guitar Info\n" ++ r.content] else sections
      | none => sections
    else sections
  let sections := if state.active_agents.contains "recommendation" then
      match state.recommendation_response with
      | some r => if r.content ≠ "" then sections ++ ["### ✨ Recommendations\n" ++ r.content] else sections
      | none => sections
    else sections
  let sections := if state.active_agents.contains "negotiation" then
      match state.negotiation_response with
      | some r => if r.content ≠ "" then sections ++ ["### 💰 Pricing & Deals\n" ++ r.content] else sections
      | none => sections
    else sections
  let body := if sections.isEmpty then fallback_body
    else String.intercalate "\n\n" sections
  { state with
      final_response := body ++ closing_line
      current_stage := "complete"
      workflow_complete := true }

/-- The compiled LangGraph graph (orchestrator.py lines 65-105), run on an
initial state: entry at `parse_intent`, fixed edge to `information_node`,
then dispatch on the key returned by `_route_after_information` (and, from
the recommendation node, by `_route_after_recommendation`) through the
conditional-edge mappings, then `synthesize_response` and END. Returns the
final state together with the list of node names executed, in order. -/
def graph_invoke (ag : Agents) (s0 : AgentState) : AgentState × List String :=
  if route_after_information (run_information_agent ag (parse_customer_intent s0)) =
      "recommendation_node" then
    if route_after_recommendation (run_recommendation_agent ag
        (run_information_agent ag (parse_customer_intent s0))) =
        "negotiation_node" then
      (synthesize_response (run_negotiation_agent ag (run_recommendation_agent ag
        (run_information_agent ag (parse_customer_intent s0)))),
       ["parse_intent", "information_node", "recommendation_node",
        "negotiation_node", "synthesize_response"])
    else
      (synthesize_response (run_recommendation_agent ag
        (run_information_agent ag (parse_customer_intent s0))),
       ["parse_intent", "information_node", "recommendation_node",
        "synthesize_response"])
  else if route_after_information (run_information_agent ag (parse_customer_intent s0)) =
      "negotiation_node" then
    (synthesize_response (run_negotiation_agent ag
      (run_information_agent ag (parse_customer_intent s0))),
     ["parse_intent", "information_node", "negotiation_node",
      "synthesize_response"])
  else
    (synthesize_response (run_information_agent ag (parse_customer_intent s0)),
     ["parse_intent", "information_node", "synthesize_response"])

/-- The `initial_state` dict built by `process_customer_query`
(orchestrator.py lines 261-280): the current query is appended to a copy of
the caller's history (`history + [...]`). A `None` history argument is the
empty list. -/
def initial_state (query : String) (history : List Turn)
    (preferences : List (String × String)) : AgentState :=
  { customer_query := query
    conversation_history := history ++ [⟨"user", none, query⟩]
    intent := ""
    active_agents := []
    information_response := none
    recommendation_response := none
    negotiation_response := none
    final_response := ""
    current_stage := "initialized"
    workflow_complete := false
    preferences := preferences }

/-- `result = self.graph.invoke(initial_state)` (orchestrator.py line 282). -/
def final_state (ag : Agents) (query : String) (history : List Turn)
    (preferences : List (String × String)) : AgentState :=
  (graph_invoke ag (initial_state query history preferences)).1

/-- The node names executed by the graph for this invocation, in order. -/
def nodes_executed (ag : Agents) (query : String) (history : List Turn)
    (preferences : List (String × String)) : List String :=
  (graph_invoke ag (initial_state query history preferences)).2

/-- One step of the `agents_involved` loop (orchestrator.py lines 285-289):
keep a response slot iff it is truthy and its content is truthy. -/
def slot_involved (s : Option AgentResp) : List AgentResp :=
  match s with
  | some r => if r.content ≠ "" then [r] else []
  | none => []

/-- The `metadata` record of the returned dict. -/
structure Metadata where
  intent : String
  active_agents : List String
  workflow_complete : Bool
  final_stage : String
deriving DecidableEq, Repr

/-- The record returned by `process_customer_query`. -/
structure QueryResult where
  status : String
  final_response : String
  conversation_history : List Turn
  agents_involved : List AgentResp
  metadata : Metadata
deriving DecidableEq, Repr

/-- `process_customer_query` (orchestrator.py lines 253-302). -/
def process_customer_query (ag : Agents) (query : String)
    (history : List Turn) (preferences : List (String × String)) :
    QueryResult :=
  let result := final_state ag query history preferences
  { status := "success"
    final_response := result.final_response
    conversation_history := result.conversation_history
    agents_involved :=
      slot_involved result.information_response ++
      slot_involved result.recommendation_response ++
      slot_involved result.negotiation_response
    metadata :=
      { intent := result.intent
        active_agents := result.active_agents
        workflow_complete := result.workflow_complete
        final_stage := result.current_stage } }

/-- Concrete content oracles used by witnesses and counterexamples. -/
def constAgents : Agents :=
  ⟨fun _ _ => "INFO", fun _ _ => "REC", fun _ _ => "NEG"⟩

-- scratch checks
example :
    (process_customer_query constAgents "zzz" [] []).conversation_history.map Turn.role =
      ["user", "system", "agent"] := by decide
example :
    (process_customer_query constAgents "recommend a price deal" [] []).conversation_history.map Turn.role =
      ["user", "system", "agent", "agent"] := by decide

/-! ### Retrieval (`src/utils/rag.py`) -/

/-- Python `text.split()` on a character list: split on whitespace runs,
dropping empty pieces. -/
def splitWsAux : List Char → List Char → List (List Char)
  | [], acc => if acc.isEmpty then [] else [acc.reverse]
  | c :: cs, acc =>
    if c.isWhitespace then
      if acc.isEmpty then splitWsAux cs [] else acc.reverse :: splitWsAux cs []
    else splitWsAux cs (c :: acc)

def splitWs (s : List Char) : List (List Char) :=
  splitWsAux s []

/-- Stable insertion (descending by score): `x` goes before the first
element whose score does not exceed it; with `≥` this reproduces the
stability of Python's `list.sort(..., reverse=True)`. -/
def insertDesc (x : Nat × String) : List (Nat × String) → List (Nat × String)
  | [] => [x]
  | y :: ys => if x.1 ≥ y.1 then x :: y :: ys else y :: insertDesc x ys

/-- Stable descending sort by score, as `scores.sort(key=..., reverse=True)`. -/
def sortDescStable : List (Nat × String) → List (Nat × String)
  | [] => []
  | x :: xs => insertDesc x (sortDescStable xs)

/-- `GuitarKnowledgeRAG._keyword_search` (rag.py lines 174-192): documents
are their `page_content` strings; score = number of lower-cased query words
occurring as substrings of the lower-cased content; keep positive scores,
sort stably by score descending, return the top `k` contents. -/
def keyword_search (documents : List String) (query : String) (k : Nat) :
    List String :=
  if documents.isEmpty then ["No catalog data available."]
  else
    let query_words := splitWs (pyLower query)
    let scores := documents.filterMap (fun doc =>
      let content := pyLower doc
      let score := (query_words.filter (fun w => charsInfixOf w content)).length
      if score > 0 then some (score, doc) else none)
    ((sortDescStable scores).take k).map Prod.snd

/-- `GuitarKnowledgeRAG.retrieve` (rag.py lines 158-172). The vector path is
external (FAISS + embeddings): `vector = some rs` models a usable
vectorstore whose `similarity_search(query, k)` call returns the contents
`rs`; `vector = none` models an unavailable vectorstore or a raised and
caught retrieval error, in which case the keyword fallback runs. -/
def retrieve (vector : Option (List String)) (documents : List String)
    (query : String) (k : Nat) : List String :=
  match vector with
  | some results => results
  | none => keyword_search documents query k

def no_information_sentinel : String :=
  "No relevant information found in the knowledge base."

/-- `GuitarKnowledgeRAG.retrieve_with_context` (rag.py lines 194-205):
sentinel on an empty result list, otherwise numbered catalog-entry blocks
under a fixed header. -/
def retrieve_with_context (vector : Option (List String))
    (documents : List String) (query : String) (k : Nat) : String :=
  let results := retrieve vector documents query k
  if results.isEmpty then no_information_sentinel
  else
    let formatted := results.enum.map (fun p =>
      "--- CATALOG ENTRY " ++ toString (p.1 + 1) ++ " ---\n" ++ p.2)
    "Guitar Catalog Excerpts:\n" ++ String.intercalate "\n\n" formatted

/-! ### Heap-level model of `process_customer_query`

Python lists are mutable heap objects: `history + [...]` (line 266)
allocates a fresh list, while each node's
`state["conversation_history"].append(...)` mutates the list object the
state refers to, in place. To reason about aliasing with the caller's
list, the run is replayed over an explicit heap of list objects: the
caller's history lives at reference `histRef`, line 266 allocates a fresh
reference, and every append is an in-place update of that fresh
reference. -/

/-- A heap of Python list objects holding conversation turns; references
are indices. -/
abbrev Heap := List (List Turn)

/-- Dereference (a dangling reference reads as the empty list). -/
def heapGet (h : Heap) (r : Nat) : List Turn :=
  h.getD r []

/-- `obj.append(t)` on the list object at `r`: in-place mutation. -/
def heapAppend (h : Heap) (r : Nat) (t : Turn) : Heap :=
  h.set r (heapGet h r ++ [t])

/-- `process_customer_query` replayed over the heap: the caller's history
is the object at `histRef`; `current_history = history + [user turn]`
allocates object `h0.length`; the graph nodes append to that object per the
route taken (the same route `graph_invoke` takes, driven by the active
agents). Returns the final heap and the returned conversation history. -/
def heap_process_customer_query (ag : Agents) (query : String) (h0 : Heap)
    (histRef : Nat) (preferences : List (String × String)) :
    Heap × List Turn :=
  let current := heapGet h0 histRef ++ [⟨"user", none, query⟩]
  let r1 := h0.length
  let h1 := h0 ++ [current]
  let intent := classify_intent query
  let active := dictGet INTENT_AGENT_MAP intent ["information"]
  let h2 := heapAppend h1 r1
    ⟨"system", none, "Detected intent: " ++ intent ++ " → activating: " ++
      String.intercalate ", " active⟩
  let h3 := heapAppend h2 r1
    ⟨"agent", some "Information Agent",
      ag.infoGen query (heapGet h2 r1).dropLast⟩
  let h4 :=
    if active.contains "recommendation" then
      let h3b := heapAppend h3 r1
        ⟨"agent", some "Recommendation Agent",
          ag.recGen preferences (heapGet h3 r1).dropLast⟩
      if active.contains "negotiation" then
        heapAppend h3b r1
          ⟨"agent", some "Price Negotiator Agent", ag.negGen query 1⟩
      else h3b
    else if active.contains "negotiation" then
      heapAppend h3 r1
        ⟨"agent", some "Price Negotiator Agent", ag.negGen query 1⟩
    else h3
  (h4, heapGet h4 r1)

-- scratch checks
example :
    retrieve_with_context (some []) [] "guitar" 8 = no_information_sentinel := by decide
example :
    keyword_search ["Fender Stratocaster electric", "Yamaha acoustic"] "yamaha" 5 =
      ["Yamaha acoustic"] := by decide
example :
    heapGet (heap_process_customer_query constAgents "hi"
      [[⟨"user", none, "old"⟩]] 0 []).1 0 = [⟨"user", none, "old"⟩] := by decide

/-! ### Lemmas about the classifier -/

lemma foldl_max_mem (xs : List (String × Nat)) :
    ∀ x, xs.foldl (fun b a => if a.2 > b.2 then a else b) x ∈ x :: xs := by
  induction xs with
  | nil => intro x; simp
  | cons a t ih =>
    intro x
    simp only [List.foldl_cons]
    have h := ih (if a.2 > x.2 then a else x)
    have hsub : (if a.2 > x.2 then a else x) ∈ x :: a :: t := by
      by_cases hc : a.2 > x.2 <;> simp [hc]
    rcases List.mem_cons.mp h with h | h
    · rw [h]; exact hsub
    · exact List.mem_cons_of_mem _ (List.mem_cons_of_mem _ h)

lemma foldl_max_ge (xs : List (String × Nat)) :
    ∀ x p, p ∈ x :: xs →
      p.2 ≤ (xs.foldl (fun b a => if a.2 > b.2 then a else b) x).2 := by
  induction xs with
  | nil => intro x p hp; simp at hp; simp [hp]
  | cons a t ih =>
    intro x p hp
    simp only [List.foldl_cons]
    have hx : x.2 ≤ (if a.2 > x.2 then a else x).2 := by
      split <;> omega
    have ha : a.2 ≤ (if a.2 > x.2 then a else x).2 := by
      split <;> omega
    have hhead := ih (if a.2 > x.2 then a else x) (if a.2 > x.2 then a else x)
      (List.mem_cons_self _ _)
    rcases List.mem_cons.mp hp with h | h
    · subst h; exact le_trans hx hhead
    · rcases List.mem_cons.mp h with h | h
      · subst h; exact le_trans ha hhead
      · exact ih _ p (List.mem_cons_of_mem _ h)

lemma pyMax_mem (x : String × Nat) (xs : List (String × Nat)) :
    pyMax x xs ∈ x :: xs :=
  foldl_max_mem xs x

lemma pyMax_ge (x : String × Nat) (xs : List (String × Nat)) :
    ∀ p ∈ x :: xs, p.2 ≤ (pyMax x xs).2 := fun p hp =>
  foldl_max_ge xs x p hp

/-- The best-scoring pair taken by `_classify_intent`:
`max(scores, key=scores.get)` together with its score. -/
def best_pair (q : String) : String × Nat :=
  pyMax (INTENT_PRICE, countHits price_kw (pyLower q))
    [(INTENT_RECOMMEND, countHits rec_kw (pyLower q)),
     (INTENT_INFO, countHits info_kw (pyLower q)),
     (INTENT_COMPARE, countHits comp_kw (pyLower q))]

lemma classify_intent_def (q : String) :
    classify_intent q =
      if (best_pair q).2 > 0 then (best_pair q).1 else INTENT_GENERAL := rfl

lemma best_pair_mem (q : String) : best_pair q ∈ intentScores q := by
  unfold best_pair intentScores
  exact pyMax_mem _ _

lemma best_pair_ge (q : String) :
    ∀ p ∈ intentScores q, p.2 ≤ (best_pair q).2 := by
  unfold best_pair intentScores
  exact pyMax_ge _ _

/-- The classifier only ever returns one of the five intent labels. -/
lemma classify_mem (q : String) :
    classify_intent q = INTENT_PRICE ∨ classify_intent q = INTENT_RECOMMEND ∨
    classify_intent q = INTENT_INFO ∨ classify_intent q = INTENT_COMPARE ∨
    classify_intent q = INTENT_GENERAL := by
  rw [classify_intent_def]
  by_cases h : (best_pair q).2 > 0
  · rw [if_pos h]
    have hm := best_pair_mem q
    simp only [intentScores, List.mem_cons, List.not_mem_nil, or_false] at hm
    rcases hm with h1 | h1 | h1 | h1 <;> rw [h1] <;> simp
  · rw [if_neg h]
    right; right; right; right; rfl

/-- The active-agents list is one of the three mapped values. -/
lemma active_cases (q : String) :
    active_agents_for q = ["information"] ∨
    active_agents_for q = ["information", "recommendation"] ∨
    active_agents_for q = ["information", "negotiation"] := by
  unfold active_agents_for
  rcases classify_mem q with h | h | h | h | h <;> rw [h] <;> decide

/-! ### Path lemmas for the compiled graph -/

lemma state_after_info_active (ag : Agents) (s0 : AgentState) :
    (run_information_agent ag (parse_customer_intent s0)).active_agents =
      dictGet INTENT_AGENT_MAP (classify_intent s0.customer_query)
        ["information"] := rfl

lemma graph_invoke_info_only (ag : Agents) (s0 : AgentState)
    (h : dictGet INTENT_AGENT_MAP (classify_intent s0.customer_query)
      ["information"] = ["information"]) :
    graph_invoke ag s0 =
      (synthesize_response (run_information_agent ag (parse_customer_intent s0)),
       ["parse_intent", "information_node", "synthesize_response"]) := by
  have hr : route_after_information (run_information_agent ag (parse_customer_intent s0)) =
      "synthesize_response" := by
    unfold route_after_information
    rw [state_after_info_active, h]
    decide
  unfold graph_invoke
  rw [hr, if_neg (by decide), if_neg (by decide)]

lemma graph_invoke_info_rec (ag : Agents) (s0 : AgentState)
    (h : dictGet INTENT_AGENT_MAP (classify_intent s0.customer_query)
      ["information"] = ["information", "recommendation"]) :
    graph_invoke ag s0 =
      (synthesize_response (run_recommendation_agent ag
        (run_information_agent ag (parse_customer_intent s0))),
       ["parse_intent", "information_node", "recommendation_node",
        "synthesize_response"]) := by
  have hr : route_after_information (run_information_agent ag (parse_customer_intent s0)) =
      "recommendation_node" := by
    unfold route_after_information
    rw [state_after_info_active, h]
    decide
  have hr2 : route_after_recommendation (run_recommendation_agent ag
      (run_information_agent ag (parse_customer_intent s0))) =
      "synthesize_response" := by
    unfold route_after_recommendation
    have : (run_recommendation_agent ag (run_information_agent ag
        (parse_customer_intent s0))).active_agents =
        dictGet INTENT_AGENT_MAP (classify_intent s0.customer_query)
          ["information"] := rfl
    rw [this, h]
    decide
  unfold graph_invoke
  rw [hr, if_pos (by decide), hr2, if_neg (by decide)]

lemma graph_invoke_info_neg (ag : Agents) (s0 : AgentState)
    (h : dictGet INTENT_AGENT_MAP (classify_intent s0.customer_query)
      ["information"] = ["information", "negotiation"]) :
    graph_invoke ag s0 =
      (synthesize_response (run_negotiation_agent ag
        (run_information_agent ag (parse_customer_intent s0))),
       ["parse_intent", "information_node", "negotiation_node",
        "synthesize_response"]) := by
  have hr : route_after_information (run_information_agent ag (parse_customer_intent s0)) =
      "negotiation_node" := by
    unfold route_after_information
    rw [state_after_info_active, h]
    decide
  unfold graph_invoke
  rw [hr, if_neg (by decide), if_pos (by decide)]

/-! ### Claim theorems: intent classification -/

lemma countHits_eq_zero (kws : List String) (q : List Char)
    (h : ∀ kw ∈ kws, substrIn kw q = false) : countHits kws q = 0 := by
  unfold countHits
  rw [List.length_eq_zero, List.filter_eq_nil_iff]
  intro kw hkw
  simp [h kw hkw]

/-- C3: a query matching no keyword of any of the four lists classifies as
`general_inquiry` with active set `{information}`; a query with some
positive list score classifies to an intent of maximal keyword-hit score. -/
theorem c3_zero_hits_general_and_best_is_max :
    (∀ q : String,
      (∀ kw ∈ price_kw ++ rec_kw ++ info_kw ++ comp_kw,
        substrIn kw (pyLower q) = false) →
      classify_intent q = INTENT_GENERAL ∧
        active_agents_for q = ["information"]) ∧
    (∀ q : String, (∃ p ∈ intentScores q, 0 < p.2) →
      ∃ p ∈ intentScores q, classify_intent q = p.1 ∧
        ∀ r ∈ intentScores q, r.2 ≤ p.2) := by
  constructor
  · intro q hq
    have hz : ∀ kws, kws = price_kw ∨ kws = rec_kw ∨ kws = info_kw ∨ kws = comp_kw →
        countHits kws (pyLower q) = 0 := by
      intro kws hkws
      refine countHits_eq_zero kws (pyLower q) (fun kw hkw => hq kw ?_)
      rcases hkws with h | h | h | h <;> subst h <;> simp [hkw]
    have hb : (best_pair q).2 = 0 := by
      have hm := best_pair_mem q
      simp only [intentScores, hz price_kw (Or.inl rfl),
        hz rec_kw (Or.inr (Or.inl rfl)), hz info_kw (Or.inr (Or.inr (Or.inl rfl))),
        hz comp_kw (Or.inr (Or.inr (Or.inr rfl))), List.mem_cons,
        List.not_mem_nil, or_false] at hm
      rcases hm with h | h | h | h <;> rw [h]
    have hcl : classify_intent q = INTENT_GENERAL := by
      rw [classify_intent_def, hb]
      simp
    refine ⟨hcl, ?_⟩
    unfold active_agents_for
    rw [hcl]
    decide
  · intro q hpos
    obtain ⟨p, hp, hp2⟩ := hpos
    have hle := best_pair_ge q p hp
    have hbpos : (best_pair q).2 > 0 := lt_of_lt_of_le hp2 hle
    exact ⟨best_pair q, best_pair_mem q,
      by rw [classify_intent_def, if_pos hbpos], best_pair_ge q⟩

/-- Witness for C3 at concrete queries. -/
theorem c3_witness :
    (classify_intent "xyzzy" = INTENT_GENERAL ∧
      active_agents_for "xyzzy" = ["information"]) ∧
    (∃ p ∈ intentScores "price", classify_intent "price" = p.1 ∧
      ∀ r ∈ intentScores "price", r.2 ≤ p.2) :=
  ⟨c3_zero_hits_general_and_best_is_max.1 "xyzzy" (by decide),
   c3_zero_hits_general_and_best_is_max.2 "price"
     ⟨(INTENT_PRICE, 1), by decide, by decide⟩⟩

/-- C4 counterexample: "price about" scores 1 for both `price_inquiry` and
`information_request` (a tie at the maximum), and the code returns
`price_inquiry`, not the claimed first-declared `information_request`. -/
theorem c4_counterexample :
    intentScores "price about" =
      [(INTENT_PRICE, 1), (INTENT_RECOMMEND, 0),
       (INTENT_INFO, 1), (INTENT_COMPARE, 0)] ∧
    classify_intent "price about" = INTENT_PRICE ∧
    INTENT_PRICE ≠ INTENT_INFO := by decide

/-- C4 amended: on a positive best score, ties are broken in the iteration
order of the scores mapping — `price_inquiry`, then
`recommendation_request`, then `information_request`, then
`comparison_request` (not the intent-constant declaration order). -/
theorem c4_amended_tiebreak_order (q : String)
    (h : 0 < countHits price_kw (pyLower q) + countHits rec_kw (pyLower q) +
      countHits info_kw (pyLower q) + countHits comp_kw (pyLower q)) :
    classify_intent q =
      if countHits rec_kw (pyLower q) ≤ countHits price_kw (pyLower q) ∧
         countHits info_kw (pyLower q) ≤ countHits price_kw (pyLower q) ∧
         countHits comp_kw (pyLower q) ≤ countHits price_kw (pyLower q) then
        INTENT_PRICE
      else if countHits info_kw (pyLower q) ≤ countHits rec_kw (pyLower q) ∧
              countHits comp_kw (pyLower q) ≤ countHits rec_kw (pyLower q) then
        INTENT_RECOMMEND
      else if countHits comp_kw (pyLower q) ≤ countHits info_kw (pyLower q) then
        INTENT_INFO
      else INTENT_COMPARE := by
  rw [classify_intent_def]
  unfold best_pair pyMax
  simp only [List.foldl_cons, List.foldl_nil]
  split_ifs <;> first | rfl | (exfalso; omega)

/-- Witness for C4's amended tie-break at a concrete query. -/
theorem c4_amended_witness : classify_intent "cost" = INTENT_PRICE := by
  rw [c4_amended_tiebreak_order "cost" (by decide)]
  decide

/-- C5: the fixed intent-to-responder mapping, and price-keyword-only
queries yield `price_inquiry` with active set `{information, negotiation}`. -/
theorem c5_intent_agent_map :
    (dictGet INTENT_AGENT_MAP INTENT_INFO ["information"] = ["information"] ∧
     dictGet INTENT_AGENT_MAP INTENT_RECOMMEND ["information"] =
       ["information", "recommendation"] ∧
     dictGet INTENT_AGENT_MAP INTENT_PRICE ["information"] =
       ["information", "negotiation"] ∧
     dictGet INTENT_AGENT_MAP INTENT_COMPARE ["information"] =
       ["information", "recommendation"] ∧
     dictGet INTENT_AGENT_MAP INTENT_GENERAL ["information"] =
       ["information"]) ∧
    (∀ q : String, 0 < countHits price_kw (pyLower q) →
      countHits rec_kw (pyLower q) = 0 → countHits info_kw (pyLower q) = 0 →
      countHits comp_kw (pyLower q) = 0 →
      classify_intent q = INTENT_PRICE ∧
        active_agents_for q = ["information", "negotiation"]) := by
  constructor
  · decide
  · intro q hp hr hi hc
    have hcl : classify_intent q = INTENT_PRICE := by
      rw [classify_intent_def]
      unfold best_pair pyMax
      rw [hr, hi, hc]
      simp only [List.foldl_cons, List.foldl_nil]
      split_ifs <;> first | rfl | (exfalso; omega)
    refine ⟨hcl, ?_⟩
    unfold active_agents_for
    rw [hcl]
    decide

/-- Witness for C5 at a concrete price-keyword-only query. -/
theorem c5_witness :
    classify_intent "cheap" = INTENT_PRICE ∧
      active_agents_for "cheap" = ["information", "negotiation"] :=
  c5_intent_agent_map.2 "cheap" (by decide) (by decide) (by decide) (by decide)

/-! ### Claim theorems: response synthesis -/

/-- The content held in a result slot (`""` for the initial empty dict). -/
def slot_content (s : Option AgentResp) : String :=
  match s with
  | some r => r.content
  | none => ""

/-- The section list as the spec describes it (§4.4): one labeled section
per responder that is in the active set and whose result slot has non-empty
content, in the fixed order information, recommendation, negotiation. -/
def spec_sections (s : AgentState) : List String :=
  (if s.active_agents.contains "information" ∧
      slot_content s.information_response ≠ "" then
    ["### 📚 Guitar Info\n" ++ slot_content s.information_response] else []) ++
  (if s.active_agents.contains "recommendation" ∧
      slot_content s.recommendation_response ≠ "" then
    ["### ✨ Recommendations\n" ++ slot_content s.recommendation_response] else []) ++
  (if s.active_agents.contains "negotiation" ∧
      slot_content s.negotiation_response ≠ "" then
    ["### 💰 Pricing & Deals\n" ++ slot_content s.negotiation_response] else [])

/-- C7: for every workflow state, the synthesized final response is the
spec-described section list (exactly one labeled section per active
responder with non-empty content, fixed order, sections of non-active
responders never included) joined by blank lines — or the fixed fallback
sentence when no section qualifies — with the fixed closing invitation
line appended in every case. -/
theorem c7_synthesis_sections (s : AgentState) :
    (synthesize_response s).final_response =
      (if spec_sections s = [] then fallback_body
       else String.intercalate "\n\n" (spec_sections s)) ++ closing_line := by
  unfold synthesize_response spec_sections slot_content
  by_cases h1 : s.active_agents.contains "information" <;>
    by_cases h2 : s.active_agents.contains "recommendation" <;>
      by_cases h3 : s.active_agents.contains "negotiation" <;>
        cases s.information_response <;>
          cases s.recommendation_response <;>
            cases s.negotiation_response <;>
              simp_all <;> split_ifs <;> simp_all

/-! ### Claim theorems: retrieval degradation -/

/-- C8: whenever retrieval yields zero results, the context string handed
to the responder is the explicit "no information found" sentinel; and the
context string is never empty (the function is total, so no error path
exists). -/
theorem c8_empty_retrieval_sentinel (vector : Option (List String))
    (documents : List String) (query : String) (k : Nat) :
    (retrieve vector documents query k = [] →
      retrieve_with_context vector documents query k =
        no_information_sentinel) ∧
    retrieve_with_context vector documents query k ≠ "" := by
  constructor
  · intro h
    unfold retrieve_with_context
    rw [h]
    simp
  · unfold retrieve_with_context
    cases hres : retrieve vector documents query k with
    | nil =>
      simp only [List.isEmpty_nil, if_pos]
      decide
    | cons a t =>
      simp only [List.isEmpty_cons, Bool.false_eq_true, if_false]
      intro hcontra
      have hdata := congrArg String.data hcontra
      rw [String.data_append] at hdata
      simp at hdata

/-- Witness for C8: a usable vectorstore returning no matches. -/
theorem c8_witness :
    retrieve (some []) [] "guitar" 8 = [] ∧
    retrieve_with_context (some []) [] "guitar" 8 = no_information_sentinel ∧
    retrieve_with_context (some []) [] "guitar" 8 ≠ "" :=
  ⟨rfl, (c8_empty_retrieval_sentinel (some []) [] "guitar" 8).1 rfl,
   (c8_empty_retrieval_sentinel (some []) [] "guitar" 8).2⟩

/-! ### Claim theorems: workflow execution -/

/-- C6: a responder node other than information executes exactly when its
responder is in the active set, in the fixed precedence parse, information,
recommendation, negotiation, synthesize; in particular the negotiation node
is absent from the trace whenever `negotiation` is not active. -/
theorem c6_nodes_follow_active_set (ag : Agents) (q : String)
    (hist : List Turn) (prefs : List (String × String)) :
    nodes_executed ag q hist prefs =
      ["parse_intent", "information_node"] ++
      (if (active_agents_for q).contains "recommendation" then
        ["recommendation_node"] else []) ++
      (if (active_agents_for q).contains "negotiation" then
        ["negotiation_node"] else []) ++
      ["synthesize_response"] ∧
    ("recommendation_node" ∈ nodes_executed ag q hist prefs ↔
      (active_agents_for q).contains "recommendation" = true) ∧
    ("negotiation_node" ∈ nodes_executed ag q hist prefs ↔
      (active_agents_for q).contains "negotiation" = true) := by
  rcases active_cases q with h | h | h <;>
    (have hd := h
     unfold active_agents_for at hd)
  · have hn : nodes_executed ag q hist prefs =
        ["parse_intent", "information_node", "synthesize_response"] := by
      unfold nodes_executed
      rw [graph_invoke_info_only ag (initial_state q hist prefs) hd]
    rw [hn, h]
    decide
  · have hn : nodes_executed ag q hist prefs =
        ["parse_intent", "information_node", "recommendation_node",
         "synthesize_response"] := by
      unfold nodes_executed
      rw [graph_invoke_info_rec ag (initial_state q hist prefs) hd]
    rw [hn, h]
    decide
  · have hn : nodes_executed ag q hist prefs =
        ["parse_intent", "information_node", "negotiation_node",
         "synthesize_response"] := by
      unfold nodes_executed
      rw [graph_invoke_info_neg ag (initial_state q hist prefs) hd]
    rw [hn, h]
    decide

/-- The system turn appended by `_parse_customer_intent` for a query. -/
def detected_turn (q : String) : Turn :=
  ⟨"system", none,
   "Detected intent: " ++ classify_intent q ++ " → activating: " ++
     String.intercalate ", "
       (dictGet INTENT_AGENT_MAP (classify_intent q) ["information"])⟩

/-- The conversation turn a filled result slot contributed, if any. -/
def slot_turn (name : String) (s : Option AgentResp) : List Turn :=
  match s with
  | some r => [⟨"agent", some name, r.content⟩]
  | none => []

/-- C1 counterexample: for query "zzz" with empty input history, only the
information responder runs, yet the returned history has three turns — the
claimed form (input plus one user turn plus one agent turn per responder
run, nothing else) would have two. The extra middle turn is a system turn. -/
theorem c1_counterexample :
    (process_customer_query constAgents "zzz" [] []).conversation_history.map
        Turn.role = ["user", "system", "agent"] ∧
    (final_state constAgents "zzz" [] []).recommendation_response = none ∧
    (final_state constAgents "zzz" [] []).negotiation_response = none ∧
    (process_customer_query constAgents "zzz" [] []).conversation_history.length ≠
      ([] : List Turn).length + 1 + 1 := by decide

/-- C1 amended: the returned conversation history is the input history,
plus exactly one user turn for the current query, plus exactly one system
turn recording the detected intent, plus exactly one agent turn per
responder that actually ran, in execution order (information, then
recommendation if run, then negotiation if run). -/
theorem c1_amended_roundtrip (ag : Agents) (q : String) (hist : List Turn)
    (prefs : List (String × String)) :
    (process_customer_query ag q hist prefs).conversation_history =
      hist ++ [⟨"user", none, q⟩] ++ [detected_turn q] ++
      slot_turn "Information Agent"
        (final_state ag q hist prefs).information_response ++
      slot_turn "Recommendation Agent"
        (final_state ag q hist prefs).recommendation_response ++
      slot_turn "Price Negotiator Agent"
        (final_state ag q hist prefs).negotiation_response := by
  rcases active_cases q with h | h | h <;>
    (have hd := h
     unfold active_agents_for at hd)
  · have hf : final_state ag q hist prefs =
        synthesize_response (run_information_agent ag
          (parse_customer_intent (initial_state q hist prefs))) := by
      unfold final_state
      rw [graph_invoke_info_only ag (initial_state q hist prefs) hd]
    simp only [process_customer_query, hf]
    simp [synthesize_response, run_information_agent, parse_customer_intent,
      initial_state, slot_turn, detected_turn, List.append_assoc]
  · have hf : final_state ag q hist prefs =
        synthesize_response (run_recommendation_agent ag
          (run_information_agent ag
            (parse_customer_intent (initial_state q hist prefs)))) := by
      unfold final_state
      rw [graph_invoke_info_rec ag (initial_state q hist prefs) hd]
    simp only [process_customer_query, hf]
    simp [synthesize_response, run_recommendation_agent, run_information_agent,
      parse_customer_intent, initial_state, slot_turn, detected_turn,
      List.append_assoc]
  · have hf : final_state ag q hist prefs =
        synthesize_response (run_negotiation_agent ag
          (run_information_agent ag
            (parse_customer_intent (initial_state q hist prefs)))) := by
      unfold final_state
      rw [graph_invoke_info_neg ag (initial_state q hist prefs) hd]
    simp only [process_customer_query, hf]
    simp [synthesize_response, run_negotiation_agent, run_information_agent,
      parse_customer_intent, initial_state, slot_turn, detected_turn,
      List.append_assoc]

lemma mem_slot_involved_iff (s1 s2 s3 : Option AgentResp) (resp : AgentResp) :
    resp ∈ slot_involved s1 ++ slot_involved s2 ++ slot_involved s3 ↔
      ((s1 = some resp ∨ s2 = some resp ∨ s3 = some resp) ∧
       resp.content ≠ "") := by
  unfold slot_involved
  cases s1 <;> cases s2 <;> cases s3 <;> dsimp only <;> (try split_ifs) <;> aesop

lemma final_state_fields (ag : Agents) (q : String) (hist : List Turn)
    (prefs : List (String × String)) :
    (final_state ag q hist prefs).intent = classify_intent q ∧
    (final_state ag q hist prefs).active_agents = active_agents_for q ∧
    (final_state ag q hist prefs).workflow_complete = true ∧
    (final_state ag q hist prefs).current_stage = "complete" := by
  rcases active_cases q with h | h | h <;> unfold active_agents_for at h
  · unfold final_state
    rw [graph_invoke_info_only ag (initial_state q hist prefs) h]
    exact ⟨rfl, rfl, rfl, rfl⟩
  · unfold final_state
    rw [graph_invoke_info_rec ag (initial_state q hist prefs) h]
    exact ⟨rfl, rfl, rfl, rfl⟩
  · unfold final_state
    rw [graph_invoke_info_neg ag (initial_state q hist prefs) h]
    exact ⟨rfl, rfl, rfl, rfl⟩

/-- C9: the record returned by `process_customer_query` carries a success
status, the final state's response, history, intent, active agents, a true
completion flag and the terminal stage; and `agents_involved` holds exactly
the result slots of the responders that ran in this invocation and produced
non-empty content. -/
theorem c9_result_shape (ag : Agents) (q : String) (hist : List Turn)
    (prefs : List (String × String)) :
    (process_customer_query ag q hist prefs).status = "success" ∧
    (process_customer_query ag q hist prefs).final_response =
      (final_state ag q hist prefs).final_response ∧
    (process_customer_query ag q hist prefs).conversation_history =
      (final_state ag q hist prefs).conversation_history ∧
    (process_customer_query ag q hist prefs).metadata =
      ⟨classify_intent q, active_agents_for q, true, "complete"⟩ ∧
    ∀ resp : AgentResp,
      resp ∈ (process_customer_query ag q hist prefs).agents_involved ↔
        (((final_state ag q hist prefs).information_response = some resp ∨
          (final_state ag q hist prefs).recommendation_response = some resp ∨
          (final_state ag q hist prefs).negotiation_response = some resp) ∧
         resp.content ≠ "") := by
  obtain ⟨h1, h2, h3, h4⟩ := final_state_fields ag q hist prefs
  refine ⟨rfl, rfl, rfl, ?_, ?_⟩
  · show Metadata.mk (final_state ag q hist prefs).intent
      (final_state ag q hist prefs).active_agents
      (final_state ag q hist prefs).workflow_complete
      (final_state ag q hist prefs).current_stage = _
    rw [h1, h2, h3, h4]
  · intro resp
    exact mem_slot_involved_iff
      (final_state ag q hist prefs).information_response
      (final_state ag q hist prefs).recommendation_response
      (final_state ag q hist prefs).negotiation_response resp

/-- The history argument `_run_information_agent` passes to the information
responder: `state["conversation_history"][:-1]` evaluated on the state
produced by `_parse_customer_intent` (orchestrator.py line 146). -/
def info_history_arg (q : String) (hist : List Turn)
    (prefs : List (String × String)) : List Turn :=
  (parse_customer_intent (initial_state q hist prefs)).conversation_history.dropLast

/-- C2 (code bug): the information responder is indeed the first responder
run unconditionally, but `[:-1]` strips the system intent turn that
`_parse_customer_intent` appended last, not the current user query: the
excerpt it receives is the prior turns plus the current-query user turn,
contradicting the code's own comment ("pass history excluding current
query") and the spec. -/
theorem c2_info_excerpt_includes_query (ag : Agents) (q : String)
    (hist : List Turn) (prefs : List (String × String)) :
    info_history_arg q hist prefs = hist ++ [⟨"user", none, q⟩] ∧
    (final_state ag q hist prefs).information_response =
      some ⟨"Information Agent", ag.infoGen q (info_history_arg q hist prefs)⟩ := by
  constructor
  · unfold info_history_arg parse_customer_intent initial_state
    simp [List.dropLast_concat]
  · rcases active_cases q with h | h | h <;> unfold active_agents_for at h
    · unfold final_state
      rw [graph_invoke_info_only ag (initial_state q hist prefs) h]
      rfl
    · unfold final_state
      rw [graph_invoke_info_rec ag (initial_state q hist prefs) h]
      rfl
    · unfold final_state
      rw [graph_invoke_info_neg ag (initial_state q hist prefs) h]
      rfl

/-- Witness instantiating C2's bug theorem at the failing input: with an
empty prior history and query "hello", the excerpt passed to the
information responder is the one-turn list holding the current query,
where the spec and the code comment require the empty list. -/
theorem c2_failing_input_witness :
    info_history_arg "hello" [] [] = [⟨"user", none, "hello"⟩] ∧
    info_history_arg "hello" [] [] ≠ ([] : List Turn) := by
  have h := c2_info_excerpt_includes_query constAgents "hello" [] []
  exact ⟨h.1, by rw [h.1]; decide⟩

/-! ### Claim theorems: no mutation of the caller's history (heap model) -/

lemma heapGet_alloc (h : Heap) (v : List Turn) (r : Nat) (hr : r < h.length) :
    heapGet (h ++ [v]) r = heapGet h r := by
  unfold heapGet List.getD
  simp only [List.get?_eq_getElem?]
  rw [List.getElem?_append, if_pos hr]

lemma heapGet_heapAppend_ne (h : Heap) (r : Nat) (t : Turn) (j : Nat)
    (hne : r ≠ j) : heapGet (heapAppend h r t) j = heapGet h j := by
  unfold heapAppend heapGet List.getD
  simp only [List.get?_eq_getElem?]
  rw [List.getElem?_set_ne hne]

/-- C10: the caller's history object is never mutated — after
`process_customer_query` runs (replayed over the heap of Python list
objects), the list object the caller passed in holds exactly the turns it
held before the call. -/
theorem c10_no_history_mutation (ag : Agents) (q : String) (h0 : Heap)
    (histRef : Nat) (prefs : List (String × String))
    (hr : histRef < h0.length) :
    heapGet (heap_process_customer_query ag q h0 histRef prefs).1 histRef =
      heapGet h0 histRef := by
  have hne : h0.length ≠ histRef := fun hcontra => absurd hr (by omega)
  unfold heap_process_customer_query
  simp only []
  split_ifs <;>
    simp only [heapGet_heapAppend_ne _ _ _ _ hne, heapGet_alloc _ _ _ hr]

/-- Witness for C10 at a concrete one-object heap. -/
theorem c10_witness :
    0 < ([[⟨"user", none, "old"⟩]] : Heap).length ∧
    heapGet (heap_process_customer_query constAgents "hi"
        [[⟨"user", none, "old"⟩]] 0 []).1 0 =
      heapGet [[⟨"user", none, "old"⟩]] 0 :=
  ⟨by decide, c10_no_history_mutation constAgents "hi"
    [[⟨"user", none, "old"⟩]] 0 [] (by decide)⟩

end GuitarShop
